import Mathlib

/-!
Verification of the three-stage board-extraction pipeline in `src/app.py`
(`nickbanetti/vbs`).

The Python source is shallowly embedded below: pure string helpers become
Lean functions on `List Char` / `String`, the `json` library's `loads` is
modelled by an executable recursive-descent parser producing Python values
(`PyObj`), the two model calls of `analyze_single_image` are an explicit
oracle environment (`ModelEnv`), and the module-level batch loop becomes a
fold over per-file jobs with an explicit state.  Uncaught Python exceptions
are modelled as `Except.error`.
-/

namespace VBS

/-! ### Character classes

`pySpace` models Python's `str.strip()` / regex `\s` whitespace on the ASCII
range (the unicode whitespace code points beyond ASCII are not used by any
statement below).  `jsonWs` is the exact whitespace set of the `json`
module's decoder (`' '`, `'\t'`, `'\n'`, `'\r'`). -/

def pySpace (c : Char) : Bool :=
  c = ' ' || c = '\t' || c = '\n' || c = '\r' || c = '\x0b' || c = '\x0c'

def jsonWs (c : Char) : Bool :=
  c = ' ' || c = '\t' || c = '\n' || c = '\r'

/-- The backtick character. -/
def gbc : Char := '\x60'

/-- The characters of the fence marker `` ``` ``. -/
def fenceChars : List Char := "```".toList

/-- The characters of the fence marker `` ```json ``. -/
def fenceJsonChars : List Char := "```json".toList

/-- Python substring scan: `strContains hay needle = true` iff `needle`
occurs (contiguously) inside `hay`; models Python's `needle in hay`. -/
def strContains (hay needle : List Char) : Bool :=
  match hay with
  | [] => needle.isEmpty
  | _ :: t => needle.isPrefixOf hay || strContains t needle

/-- Python's `in` operator on strings: `pyIn needle hay` is `needle in hay`. -/
def pyIn (needle hay : String) : Bool :=
  strContains hay.data needle.data

def dropSpaces (l : List Char) : List Char := l.dropWhile pySpace

/-- Fuel-driven worker for `reSubSpaced`; the fuel only serves to make the
recursion structural, `reSubSpaced` always supplies enough. -/
def reSubSpacedAux (pat : List Char) : Nat → List Char → List Char
  | _, [] => []
  | 0, l => l
  | fuel + 1, c :: rest =>
    if pat.isPrefixOf (c :: rest) then
      reSubSpacedAux pat fuel (dropSpaces ((c :: rest).drop pat.length))
    else
      c :: reSubSpacedAux pat fuel rest

/-- `re.sub(pat + r'\s*', '', l)` for a literal (non-empty) pattern `pat`:
scan left to right, and at every position where `pat` matches, delete the
match together with the greedy run of whitespace after it. -/
def reSubSpaced (pat l : List Char) : List Char :=
  reSubSpacedAux pat l.length l

/-- Python `str.strip()`: remove leading and trailing whitespace. -/
def pyStrip (l : List Char) : List Char :=
  ((l.dropWhile pySpace).reverse.dropWhile pySpace).reverse

/-- `clean_json_string` from `src/app.py` (lines 59-65):
`re.sub(r'```json\s*', '', s)` then `re.sub(r'```\s*', '', s)` then
`.strip()`. -/
def clean_json_string (s : String) : String :=
  String.mk (pyStrip (reSubSpaced fenceChars (reSubSpaced fenceJsonChars s.data)))

/-! ### Python values

`PyObj` is the image of `json.loads`: Python `None`, `bool`, `int`, `float`,
`str`, `list`, `dict`.  A `float` is kept as its source lexeme (no claim
below compares float values numerically). -/

inductive PyObj where
  | pynone
  | pybool (b : Bool)
  | pyint (n : Int)
  | pyfloat (lexeme : String)
  | pystr (s : String)
  | pylist (xs : List PyObj)
  | pydict (kvs : List (String × PyObj))
deriving Repr, Inhabited

/-- Truthiness of a Python float given its lexeme: falsy iff the mantissa
has digits and they are all `0` (`0.0`, `-0.000e17`, ...); `NaN` and
`Infinity` have no digits in this position and are truthy. -/
def pyfloatTruthy (lex : String) : Bool :=
  let m := lex.data.takeWhile (fun c => !(c = 'e' || c = 'E'))
  !(m.any (fun c => c.isDigit)) || m.any (fun c => c.isDigit && c != '0')

/-- Python truthiness (`bool(v)`) of a decoded JSON value. -/
def truthy : PyObj → Bool
  | .pynone => false
  | .pybool b => b
  | .pyint n => n != 0
  | .pyfloat lex => pyfloatTruthy lex
  | .pystr s => !s.isEmpty
  | .pylist xs => !xs.isEmpty
  | .pydict kvs => !kvs.isEmpty

/-- Lookup in a (duplicate-free) association list modelling a Python dict. -/
def dictFind : List (String × PyObj) → String → Option PyObj
  | [], _ => none
  | (k, v) :: rest, key => if k = key then some v else dictFind rest key

/-- Python `d.get(key, default)`. -/
def pyDictGet (kvs : List (String × PyObj)) (key : String) (dflt : PyObj) : PyObj :=
  (dictFind kvs key).getD dflt

/-- Python `d[key] = v`: overwrite in place if present (keeping the key's
original position), else append. -/
def pySetItem : List (String × PyObj) → String → PyObj → List (String × PyObj)
  | [], key, v => [(key, v)]
  | (k, w) :: rest, key, v =>
    if k = key then (k, v) :: rest else (k, w) :: pySetItem rest key v

/-- Python `repr` of a `str`: double quotes when the string contains `'`
but no `"`, otherwise single quotes; escapes the quote, backslash and the
common control characters (escaping of other non-printable characters is
not modelled — no statement below depends on it). -/
def pyReprStr (s : String) : String :=
  let useDouble := s.contains '\'' && !(s.contains '"')
  let q : Char := if useDouble then '"' else '\''
  let esc := s.data.flatMap (fun c =>
    if c = '\\' then [ '\\', '\\' ]
    else if c = q then [ '\\', q ]
    else if c = '\n' then [ '\\', 'n' ]
    else if c = '\r' then [ '\\', 'r' ]
    else if c = '\t' then [ '\\', 't' ]
    else [c])
  String.mk (q :: esc ++ [q])

mutual

/-- Python `repr(v)` for a decoded JSON value. -/
def pyRepr : PyObj → String
  | .pynone => "None"
  | .pybool true => "True"
  | .pybool false => "False"
  | .pyint n => toString n
  | .pyfloat lex => lex
  | .pystr s => pyReprStr s
  | .pylist xs => "[" ++ String.intercalate ", " (pyReprList xs) ++ "]"
  | .pydict kvs =>
    "\x7b" ++ String.intercalate ", " (pyReprKVs kvs) ++ "\x7d"

/-- `repr` of the elements of a Python list, in order. -/
def pyReprList : List PyObj → List String
  | [] => []
  | x :: xs => pyRepr x :: pyReprList xs

/-- `key: repr(value)` entries of a Python dict, in order. -/
def pyReprKVs : List (String × PyObj) → List String
  | [] => []
  | (k, v) :: kvs => (pyReprStr k ++ ": " ++ pyRepr v) :: pyReprKVs kvs

end

/-- Python `str(v)` (what an f-string interpolates): the string itself for a
`str`, `repr` otherwise. -/
def pyStr : PyObj → String
  | .pystr s => s
  | v => pyRepr v

/-! ### The `json.loads` decoder

Executable model of Python's `json.loads` (default flags): JSON values with
the Python extensions `NaN` / `Infinity` / `-Infinity`, strict strings
(raw control characters rejected), objects with string keys where a
duplicated key keeps the first key's position and the last value, and the
whole input must be consumed up to trailing JSON whitespace.  A number with
a fraction or exponent decodes to a `pyfloat` carrying its lexeme.  A lone
unpaired `\uXXXX` surrogate maps through `Char.ofNat` (Lean `Char` has no
surrogate code points; no statement below uses one). -/

def skipWs (l : List Char) : List Char := l.dropWhile jsonWs

/-- The character `\x7b` (opening curly bracket). -/
def lbrace : Char := '\x7b'

/-- The character `\x7d` (closing curly bracket). -/
def rbrace : Char := '\x7d'

def hexVal (c : Char) : Option Nat :=
  if '0' ≤ c ∧ c ≤ '9' then some (c.toNat - '0'.toNat)
  else if 'a' ≤ c ∧ c ≤ 'f' then some (c.toNat - 'a'.toNat + 10)
  else if 'A' ≤ c ∧ c ≤ 'F' then some (c.toNat - 'A'.toNat + 10)
  else none

def parseHex4 : List Char → Option (Nat × List Char)
  | a :: b :: c :: d :: rest => do
    let ha ← hexVal a
    let hb ← hexVal b
    let hc ← hexVal c
    let hd ← hexVal d
    pure (((ha * 16 + hb) * 16 + hc) * 16 + hd, rest)
  | _ => none

/-- Body of a JSON string literal, after the opening quote. -/
def parseStrBody : Nat → List Char → List Char → Option (String × List Char)
  | _, [], _ => none
  | 0, _, _ => none
  | fuel + 1, c :: rest, acc =>
    if c = '"' then some (String.mk acc.reverse, rest)
    else if c = '\\' then
      match rest with
      | [] => none
      | e :: rest2 =>
        if e = '"' then parseStrBody fuel rest2 ( '"' :: acc)
        else if e = '\\' then parseStrBody fuel rest2 ( '\\' :: acc)
        else if e = '/' then parseStrBody fuel rest2 ( '/' :: acc)
        else if e = 'b' then parseStrBody fuel rest2 ( '\x08' :: acc)
        else if e = 'f' then parseStrBody fuel rest2 ( '\x0c' :: acc)
        else if e = 'n' then parseStrBody fuel rest2 ( '\n' :: acc)
        else if e = 'r' then parseStrBody fuel rest2 ( '\r' :: acc)
        else if e = 't' then parseStrBody fuel rest2 ( '\t' :: acc)
        else if e = 'u' then
          match parseHex4 rest2 with
          | none => none
          | some (n1, rest3) =>
            if 0xD800 ≤ n1 ∧ n1 ≤ 0xDBFF then
              match rest3 with
              | c1 :: c2 :: rest4 =>
                if c1 = '\\' ∧ c2 = 'u' then
                  match parseHex4 rest4 with
                  | some (n2, rest5) =>
                    if 0xDC00 ≤ n2 ∧ n2 ≤ 0xDFFF then
                      parseStrBody fuel rest5
                        (Char.ofNat (0x10000 + (n1 - 0xD800) * 0x400 + (n2 - 0xDC00)) :: acc)
                    else parseStrBody fuel rest3 (Char.ofNat n1 :: acc)
                  | none => parseStrBody fuel rest3 (Char.ofNat n1 :: acc)
                else parseStrBody fuel rest3 (Char.ofNat n1 :: acc)
              | _ => parseStrBody fuel rest3 (Char.ofNat n1 :: acc)
            else parseStrBody fuel rest3 (Char.ofNat n1 :: acc)
        else none
    else if c.toNat < 0x20 then none
    else parseStrBody fuel rest (c :: acc)

def digitsVal (ds : List Char) : Int :=
  ds.foldl (fun acc c => acc * 10 + (Int.ofNat (c.toNat - 48))) 0

/-- The JSON number token (the scanner's regex
`-?(0|[1-9]\d*)(\.\d+)?([eE][+-]?\d+)?`, longest match); an integral token
decodes to `pyint`, one with fraction or exponent to `pyfloat`. -/
def parseNumber (l : List Char) : Option (PyObj × List Char) :=
  let neg : Bool := match l with | c :: _ => c = '-' | [] => false
  let l1 := if neg then l.tail else l
  match l1 with
  | [] => none
  | c0 :: _ =>
    if c0.isDigit = false then none
    else
      let intds := if c0 = '0' then [ '0' ] else l1.takeWhile Char.isDigit
      let l2 := l1.drop intds.length
      let fracds : List Char :=
        match l2 with
        | d :: t =>
          if d = '.' ∧ (t.takeWhile Char.isDigit) ≠ [] then
            '.' :: t.takeWhile Char.isDigit
          else []
        | [] => []
      let l3 := l2.drop fracds.length
      let expds : List Char :=
        match l3 with
        | e :: t =>
          if e = 'e' ∨ e = 'E' then
            let sgn : List Char := match t with
              | s :: _ => if s = '+' ∨ s = '-' then [s] else []
              | [] => []
            let ds := (t.drop sgn.length).takeWhile Char.isDigit
            if ds = [] then [] else e :: (sgn ++ ds)
          else []
        | [] => []
      let l4 := l3.drop expds.length
      if fracds = [] ∧ expds = [] then
        let v := digitsVal intds
        some (.pyint (if neg then -v else v), l4)
      else
        some (.pyfloat (String.mk ((if neg then [ '-' ] else []) ++ intds ++ fracds ++ expds)), l4)

/-- Mode of the recursive-descent core: a value, the tail of an array, or
the tail of an object. -/
inductive PMode where
  | value
  | elems (acc : List PyObj)
  | members (acc : List (String × PyObj))

/-- Recursive-descent core of `json.loads`, fuel-indexed (the fuel only
makes the recursion structural; `json_loads` always supplies enough). -/
def parseCore : Nat → PMode → List Char → Option (PyObj × List Char)
  | 0, _, _ => none
  | fuel + 1, .value, input =>
    match skipWs input with
    | [] => none
    | c :: rest =>
      if c = '"' then
        match parseStrBody (rest.length + 1) rest [] with
        | some (s, r) => some (.pystr s, r)
        | none => none
      else if c = '[' then
        match skipWs rest with
        | ']' :: r2 => some (.pylist [], r2)
        | r2 => parseCore fuel (.elems []) r2
      else if c = lbrace then
        match skipWs rest with
        | d :: r2 =>
          if d = rbrace then some (.pydict [], r2)
          else parseCore fuel (.members []) (d :: r2)
        | [] => none
      else if ( "true").data.isPrefixOf (c :: rest) then some (.pybool true, rest.drop 3)
      else if ( "false").data.isPrefixOf (c :: rest) then some (.pybool false, rest.drop 4)
      else if ( "null").data.isPrefixOf (c :: rest) then some (.pynone, rest.drop 3)
      else if ( "NaN").data.isPrefixOf (c :: rest) then some (.pyfloat "nan", rest.drop 2)
      else if ( "Infinity").data.isPrefixOf (c :: rest) then some (.pyfloat "inf", rest.drop 7)
      else if ( "-Infinity").data.isPrefixOf (c :: rest) then some (.pyfloat "-inf", rest.drop 8)
      else parseNumber (c :: rest)
  | fuel + 1, .elems acc, l =>
    match parseCore fuel .value l with
    | none => none
    | some (v, rest) =>
      match skipWs rest with
      | ',' :: r2 => parseCore fuel (.elems (v :: acc)) r2
      | ']' :: r2 => some (.pylist (v :: acc).reverse, r2)
      | _ => none
  | fuel + 1, .members acc, l =>
    match skipWs l with
    | c :: rest =>
      if c = '"' then
        match parseStrBody (rest.length + 1) rest [] with
        | some (k, r1) =>
          match skipWs r1 with
          | ':' :: r2 =>
            match parseCore fuel .value r2 with
            | some (v, r3) =>
              match skipWs r3 with
              | ',' :: r4 => parseCore fuel (.members (pySetItem acc k v)) r4
              | d :: r4 =>
                if d = rbrace then some (.pydict (pySetItem acc k v), r4) else none
              | [] => none
            | none => none
          | _ => none
        | none => none
      else none
    | [] => none

/-- `json.loads`: decode an entire string; `none` models a raised
`JSONDecodeError` (including trailing garbage — "Extra data"). -/
def json_loads (s : String) : Option PyObj :=
  match parseCore (4 * (s.length + 1)) .value s.data with
  | some (v, rest) => if (skipWs rest).isEmpty then some v else none
  | none => none

/-! ### Model catalog (`get_valid_models`, lines 67-88) -/

structure ProviderModel where
  name : String
  supported_generation_methods : List String
deriving Repr

/-- `model_sort_key` from `src/app.py` (lines 76-82): preference rank of a
model identifier (Python `in` is substring containment). -/
def model_sort_key (name : String) : Nat :=
  if pyIn "gemini-3" name then 0
  else if pyIn "gemini-1.5-pro" name then 1
  else if pyIn "gemini-2.0" name then 2
  else if pyIn "flash" name then 3
  else 4

/-- Comparison used by `valid_models.sort(key=model_sort_key)`. -/
def modelLe (a b : String) : Prop := model_sort_key a ≤ model_sort_key b

instance : DecidableRel modelLe := fun a b =>
  Nat.decLe (model_sort_key a) (model_sort_key b)

instance : IsTotal String modelLe := ⟨fun _a _b => Nat.le_total _ _⟩

instance : IsTrans String modelLe := ⟨fun _ _ _ => Nat.le_trans⟩

/-- `get_valid_models` from `src/app.py` (lines 67-88).  The provider call
`genai.list_models()` is the oracle argument: either the listed models or a
raised exception's text.  The returned pair is (the `st.error` message
displayed, if any; the returned list).  On any exception the function
displays `Authentication Error: ...` and returns `[]`.  Python's stable
`list.sort(key=...)` is modelled by insertion sort, which is stable; a
stable sort by a fixed key is a unique function of its input. -/
def get_valid_models (listing : Except String (List ProviderModel)) :
    Option String × List String :=
  match listing with
  | .error e => (some ( "Authentication Error: " ++ e), [])
  | .ok all_models =>
    let valid_models :=
      (all_models.filter
        (fun m => m.supported_generation_methods.contains "generateContent")).map
        (fun m => m.name)
    (none, valid_models.insertionSort modelLe)

/-! ### The analysis engine (`analyze_single_image`, lines 91-189) -/

/-- Oracle environment for one image: the generative model's two responses.
`Except.error e` models a raised exception with text `str(e) = e` (this
covers call failures of any kind, including rate limits whose text contains
`429`); `Except.ok t` models a successful call returning response text `t`. -/
structure ModelEnv where
  stage1 : Except String String
  stage3 : Except String String

/-- Modelled from the library: the `str()` of the `json.JSONDecodeError`
raised by `json.loads`; its wording is produced inside the `json` library
and treated as an unspecified constant (no statement below inspects it). -/
def json_decode_error_text : String := "Expecting value: line 1 column 1 (char 0)"

/-- Modelled from the library: the `str()` of the `AttributeError` raised
by `structure.get(...)` when the decoded stage-1 JSON is not a dict. -/
def attribute_error_text : String := "'list' object has no attribute 'get'"

/-- Python truthiness test of a value used as a dict: `isDict v` is whether
`v.get(...)` succeeds. -/
def isDict : PyObj → Bool
  | .pydict _ => true
  | _ => false

/-- Stage-2 context injection (lines 123-135): `rows`/`cols` default to
`[]` when absent; the matrix instruction is chosen iff both are truthy,
and embeds `str(rows)` / `str(cols)` via the f-string. -/
def matrix_context (rows cols : PyObj) : String :=
  "\n        MATRIX DETECTED.\n        ROWS: " ++ pyStr rows ++
    "\n        COLUMNS: " ++ pyStr cols ++
    "\n        TASK: Count dots/pins at every intersection.\n        "

def text_context : String :=
  "TEXT DETECTED. Extract all handwritten notes and categorize them by spatial clusters."

def stage2_context (structureDict : List (String × PyObj)) : String :=
  let rows := pyDictGet structureDict "row_headers" (.pylist [])
  let cols := pyDictGet structureDict "column_headers" (.pylist [])
  if truthy rows && truthy cols then matrix_context rows cols else text_context

/-- The final extraction prompt (lines 171-176). -/
def final_prompt (context : String) : String :=
  "\n    " ++ context ++
    "\n    REQUIREMENTS:\n    1. voting_data: One entry per matrix cell. If empty, count=0.\n    2. sticky_notes: Complete transcription of all legible text.\n    "

/-- Result of one `analyze_single_image` call: `ret data error stage3_called`
is the Python return pair `(data, error)` (Python `None` = `pynone` /
`Option.none`) plus whether the stage-3 model call was issued; `crash`
is an uncaught exception propagating to the caller. -/
inductive PipeOutcome where
  | ret (data : PyObj) (error : Option String) (stage3_called : Bool)
  | crash (msg : String)
deriving Repr

/-- `analyze_single_image` from `src/app.py` (lines 91-189).  `has_status`
is whether a `status_container` was passed (the batch loop always passes
one); when it is passed, line 115 (`structure.get('board_type', ...)`)
runs inside the stage-1 `try` and turns a non-dict decode into a caught
`Structure Analysis Failed`, whereas without it the first `.get` happens
at line 123, outside any `try`, and crashes. -/
def analyze_single_image (has_status : Bool) (env : ModelEnv) : PipeOutcome :=
  match env.stage1 with
  | .error e =>
    .ret .pynone (some ( "Structure Analysis Failed: " ++ e)) false
  | .ok t1 =>
    match json_loads (clean_json_string t1) with
    | none =>
      .ret .pynone (some ( "Structure Analysis Failed: " ++ json_decode_error_text)) false
    | some structJ =>
      if has_status && !(isDict structJ) then
        .ret .pynone (some ( "Structure Analysis Failed: " ++ attribute_error_text)) false
      else
        match structJ with
        | .pydict kvs =>
          let context := stage2_context kvs
          let _prompt := final_prompt context
          match env.stage3 with
          | .error e => .ret .pynone (some ( "Extraction Failed: " ++ e)) true
          | .ok t3 =>
            match json_loads (clean_json_string t3) with
            | none =>
              .ret .pynone (some ( "Extraction Failed: " ++ json_decode_error_text)) true
            | some v => .ret v none true
        | _ => .crash attribute_error_text

/-! ### The batch processing loop (lines 223-271) -/

/-- One uploaded file: its name and the model's responses for it. -/
structure FileJob where
  name : String
  env : ModelEnv

/-- State owned by the batch loop: the two master collections, the number
of rate-limit cooldowns triggered, the total seconds slept in cooldowns,
and the `(file, error)` pairs reported via `st.error`. -/
structure BatchState where
  all_votes : List PyObj
  all_notes : List PyObj
  cooldowns : Nat
  sleep_seconds : Nat
  reported : List (String × String)
deriving Repr

def initialBatchState : BatchState := ⟨[], [], 0, 0, []⟩

/-- Python truthiness of the `error` slot (`if error:`). -/
def errTruthy : Option String → Bool
  | none => false
  | some s => !s.isEmpty

/-- Tag every record with `source_file` (lines 261-263 / 266-268):
`v["source_file"] = file.name` requires each record to be a dict, else the
item assignment raises (`none` = crash). -/
def tagItems (fname : String) : List PyObj → Option (List PyObj)
  | [] => some []
  | .pydict kvs :: rest =>
    (tagItems fname rest).map
      (fun ts => PyObj.pydict (pySetItem kvs "source_file" (.pystr fname)) :: ts)
  | _ :: _ => none

/-- The records contributed by one truthy collection slot
(`if data.get("voting_data"): for v in data["voting_data"]: ...`): empty
when the slot is absent or falsy; the tagged records when it is a list of
dicts; a raised `TypeError` otherwise. -/
def collectRecords (fname : String) (v : PyObj) : Except String (List PyObj) :=
  if truthy v then
    match v with
    | .pylist items =>
      match tagItems fname items with
      | some tagged => .ok tagged
      | none => .error "TypeError: item assignment on a non-dict record"
    | _ => .error "TypeError: iterating a non-list collection"
  else .ok []

/-- The body of the batch loop for one file (lines 236-268). -/
def processFile (st : BatchState) (f : FileJob) : Except String BatchState :=
  match analyze_single_image true f.env with
  | .crash m => .error m
  | .ret data error _ =>
    if errTruthy error then
      let e := error.getD ""
      if pyIn "429" e then
        .ok { st with cooldowns := st.cooldowns + 1, sleep_seconds := st.sleep_seconds + 60 }
      else
        .ok { st with reported := st.reported ++ [(f.name, e)] }
    else if truthy data then
      match data with
      | .pydict kvs =>
        match collectRecords f.name (pyDictGet kvs "voting_data" .pynone) with
        | .error m => .error m
        | .ok tv =>
          match collectRecords f.name (pyDictGet kvs "sticky_notes" .pynone) with
          | .error m => .error m
          | .ok tn =>
            .ok { st with
                    all_votes := st.all_votes ++ tv
                    all_notes := st.all_notes ++ tn }
      | _ => .error "AttributeError: .get on a non-dict result"
    else .ok st

/-- The batch loop from a given state over the remaining files, in upload
order; an uncaught exception aborts the whole run. -/
def runBatchFrom : BatchState → List FileJob → Except String BatchState
  | st, [] => .ok st
  | st, f :: fs =>
    match processFile st f with
    | .ok st' => runBatchFrom st' fs
    | .error m => .error m

/-- The whole batch loop (lines 233-271). -/
def runBatch (files : List FileJob) : Except String BatchState :=
  runBatchFrom initialBatchState files

/-! ### The consolidated export (lines 275-309)

The `pandas` / `openpyxl` calls live outside this repository; they are
modelled from the spec's contract for `toCsv` / `toWorkbook` (section 4.5:
pure, stateless formatting): `pd.DataFrame(records)` keeps the record
list, `df.empty` tests it, `to_excel` contributes one named sheet, the
workbook bytes are represented by the final sheet list, and `to_csv` is a
header line plus one line per record. -/

structure DataFrame where
  rows : List PyObj
deriving Repr

def DataFrame.empty (df : DataFrame) : Bool := df.rows.isEmpty

/-- Columns inferred by `pd.DataFrame(list-of-dicts)`: the union of the
records' keys in first-appearance order. -/
def dfColumns (rows : List PyObj) : List String :=
  rows.foldl
    (fun cols r =>
      match r with
      | .pydict kvs =>
        kvs.foldl (fun cs kv => if cs.contains kv.1 then cs else cs ++ [kv.1]) cols
      | _ => cols)
    []

/-- Modelled from the spec: `df.to_csv(index=False)` — a header line of the
column names and one comma-joined line per record (quoting of exotic cell
values is not modelled; no statement below inspects cell text). -/
def to_csv (df : DataFrame) : List String :=
  let cols := dfColumns df.rows
  (String.intercalate "," cols) ::
    df.rows.map (fun r =>
      String.intercalate ","
        (cols.map (fun cname =>
          match r with
          | .pydict kvs => pyStr (pyDictGet kvs cname (.pystr ""))
          | _ => "")))

/-- The multi-tab Excel export (lines 285-290): each collection contributes
its sheet only when non-empty. -/
def excel_sheets (all_votes all_notes : List PyObj) : List (String × DataFrame) :=
  let df_votes : DataFrame := ⟨all_votes⟩
  let df_notes : DataFrame := ⟨all_notes⟩
  (if !df_votes.empty then [( "Dot Voting Data", df_votes)] else []) ++
    (if !df_notes.empty then [( "Sticky Notes Text", df_notes)] else [])

/-- The artifacts offered for download by the export section. -/
structure ExportArtifacts where
  workbook_sheets : List (String × DataFrame)
  master_csv : Option (List String)
deriving Repr

/-- The export section (lines 275-309): the consolidated workbook, and the
master notes CSV offered only when there are notes. -/
def export_section (all_votes all_notes : List PyObj) : ExportArtifacts :=
  let df_notes : DataFrame := ⟨all_notes⟩
  { workbook_sheets := excel_sheets all_votes all_notes
    master_csv := if !df_notes.empty then some (to_csv df_notes) else none }

/-! ### Derived notions used by the statements below -/

/-- Leading-backtick count of a character list. -/
def btp (l : List Char) : Nat := (l.takeWhile (fun c => c = gbc)).length

/-- Stage 1 failed for this image: the model call raised, or its response
text does not decode as JSON after sanitization. -/
def stage1_failed (env : ModelEnv) : Prop :=
  match env.stage1 with
  | .error _ => True
  | .ok t => json_loads (clean_json_string t) = none

/-- What the batch-loop body does with one file, as a classification. -/
inductive FileClass where
  | success (tv tn : List PyObj)
  | rateLimited (e : String)
  | failedOther (e : String)
  | silent
  | crashed (m : String)

/-- Classify one file's run through the loop body: which branch the code
takes, and (for a success) the tagged records it contributes. -/
def classifyFile (f : FileJob) : FileClass :=
  match analyze_single_image true f.env with
  | .crash m => .crashed m
  | .ret data error _ =>
    if errTruthy error then
      let e := error.getD ""
      if pyIn "429" e then .rateLimited e else .failedOther e
    else if truthy data then
      match data with
      | .pydict kvs =>
        match collectRecords f.name (pyDictGet kvs "voting_data" .pynone) with
        | .error m => .crashed m
        | .ok tv =>
          match collectRecords f.name (pyDictGet kvs "sticky_notes" .pynone) with
          | .error m => .crashed m
          | .ok tn => .success tv tn
      | _ => .crashed "AttributeError: .get on a non-dict result"
    else .silent

/-- The vote records a file contributes to the aggregate. -/
def deltaVotes (f : FileJob) : List PyObj :=
  match classifyFile f with
  | .success tv _ => tv
  | _ => []

/-- The note records a file contributes to the aggregate. -/
def deltaNotes (f : FileJob) : List PyObj :=
  match classifyFile f with
  | .success _ tn => tn
  | _ => []

/-- The error reports a file contributes. -/
def deltaReports (f : FileJob) : List (String × String) :=
  match classifyFile f with
  | .failedOther e => [(f.name, e)]
  | _ => []

/-- The file is processed successfully (its records enter the aggregate). -/
def isSuccess (f : FileJob) : Prop :=
  ∃ tv tn, classifyFile f = .success tv tn

/-- The file fails with an error whose truthy text contains `429`. -/
def isRateLimited (f : FileJob) : Prop :=
  ∃ e, classifyFile f = .rateLimited e

/-- The file fails with an error not matching the rate-limit signal. -/
def isFailedOther (f : FileJob) : Prop :=
  ∃ e, classifyFile f = .failedOther e

/-- Boolean form of `isRateLimited`. -/
def isRateLimitedB (f : FileJob) : Bool :=
  match classifyFile f with
  | .rateLimited _ => true
  | _ => false

/-- Number of rate-limit cooldowns a list of files triggers. -/
def rlCount (fs : List FileJob) : Nat := (fs.filter isRateLimitedB).length

/-- The names of the content-generation-capable models, in provider order
(the filtered list `valid_models` before sorting). -/
def validNames (ms : List ProviderModel) : List String :=
  (ms.filter
    (fun m => m.supported_generation_methods.contains "generateContent")).map
    (fun m => m.name)

/-- The four model identifiers of the spec's ranking example. -/
def demoModels : List ProviderModel :=
  [⟨ "flash-x", [ "generateContent"]⟩,
   ⟨ "gemini-1.5-pro-x", [ "generateContent"]⟩,
   ⟨ "gemini-3-preview", [ "generateContent"]⟩,
   ⟨ "other", [ "generateContent"]⟩]

/-- A stage-1 response classifying the board as a one-cell matrix. -/
def sampleStructText : String :=
  "\x7b\"board_type\": \"Dot Voting\", \"row_headers\": [\"A\"], \"column_headers\": [\"X\"]\x7d"

/-- A stage-3 response with one vote record and no notes. -/
def sampleDataText : String :=
  "\x7b\"voting_data\": [\x7b\"row_label\": \"A\", \"column_label\": \"X\", \"dot_count\": 2\x7d], \"sticky_notes\": []\x7d"

/-- A file whose two calls both succeed with well-formed responses. -/
def sampleGoodJob : FileJob :=
  ⟨ "good.jpg", ⟨.ok sampleStructText, .ok sampleDataText⟩⟩

/-- A file whose stage-3 call raises a rate-limit error. -/
def sampleRateLimitedJob : FileJob :=
  ⟨ "limited.jpg", ⟨.ok sampleStructText, .error "429 Resource has been exhausted"⟩⟩

/-- A file whose stage-1 call raises an unrelated error. -/
def sampleFailedJob : FileJob :=
  ⟨ "broken.jpg", ⟨.error "DeadlineExceeded", .ok sampleDataText⟩⟩

/-! ## Helper lemmas -/

theorem strContains_iff {hay needle : List Char} :
    strContains hay needle = true ↔ needle <:+: hay := by
  induction hay with
  | nil =>
    simp only [strContains, List.isEmpty_iff]
    constructor
    · rintro rfl
      exact List.nil_infix
    · intro h
      simpa using h.length_le
  | cons c t ih =>
    simp [strContains, ih, List.infix_cons_iff, List.isPrefixOf_iff_prefix]

theorem pyIn_iff {needle hay : String} :
    pyIn needle hay = true ↔ needle.data <:+: hay.data :=
  strContains_iff

theorem reSubSpacedAux_nil (pat : List Char) (f : Nat) :
    reSubSpacedAux pat f [] = [] := by
  cases f <;> rfl

theorem dropSpaces_length_le (l : List Char) : (dropSpaces l).length ≤ l.length :=
  (List.dropWhile_suffix pySpace).sublist.length_le

theorem reSubSpacedAux_congr (pat : List Char) (hp : pat ≠ []) :
    ∀ (f₁ : Nat) (l : List Char) (f₂ : Nat), l.length ≤ f₁ → l.length ≤ f₂ →
      reSubSpacedAux pat f₁ l = reSubSpacedAux pat f₂ l := by
  intro f₁
  induction f₁ with
  | zero =>
    intro l f₂ h1 _
    have hl : l = [] := List.eq_nil_of_length_eq_zero (Nat.le_zero.mp h1)
    subst hl
    simp [reSubSpacedAux_nil]
  | succ g ih =>
    intro l f₂ h1 h2
    cases l with
    | nil => simp [reSubSpacedAux_nil]
    | cons c rest =>
      cases f₂ with
      | zero => simp at h2
      | succ g₂ =>
        have hpat : 1 ≤ pat.length := List.length_pos.mpr hp
        have hdrop : (dropSpaces ((c :: rest).drop pat.length)).length ≤ rest.length := by
          calc (dropSpaces ((c :: rest).drop pat.length)).length
              ≤ ((c :: rest).drop pat.length).length := dropSpaces_length_le _
            _ = rest.length + 1 - pat.length := by simp [List.length_drop]
            _ ≤ rest.length := by omega
        have hr1 : rest.length ≤ g := by simpa using h1
        have hr2 : rest.length ≤ g₂ := by simpa using h2
        simp only [reSubSpacedAux]
        by_cases hm : pat.isPrefixOf (c :: rest)
        · simp only [hm, if_true]
          exact ih _ _ (le_trans hdrop hr1) (le_trans hdrop hr2)
        · simp only [hm, if_false, Bool.false_eq_true]
          exact congrArg (c :: ·) (ih _ _ hr1 hr2)

theorem reSubSpaced_cons (pat : List Char) (hp : pat ≠ []) (c : Char) (rest : List Char) :
    reSubSpaced pat (c :: rest) =
      if pat.isPrefixOf (c :: rest) then
        reSubSpaced pat (dropSpaces ((c :: rest).drop pat.length))
      else c :: reSubSpaced pat rest := by
  have hpat : 1 ≤ pat.length := List.length_pos.mpr hp
  have hdrop : (dropSpaces ((c :: rest).drop pat.length)).length ≤ rest.length := by
    calc (dropSpaces ((c :: rest).drop pat.length)).length
        ≤ ((c :: rest).drop pat.length).length := dropSpaces_length_le _
      _ = rest.length + 1 - pat.length := by simp [List.length_drop]
      _ ≤ rest.length := by omega
  show reSubSpacedAux pat (rest.length + 1) (c :: rest) = _
  simp only [reSubSpacedAux]
  by_cases hm : pat.isPrefixOf (c :: rest)
  · simp only [hm, if_true]
    exact reSubSpacedAux_congr pat hp _ _ _ hdrop (Nat.le_refl _)
  · simp only [hm, if_false, Bool.false_eq_true]
    rfl

theorem reSubSpaced_eq_self {pat l : List Char} (hp : pat ≠ [])
    (h : ¬ pat <:+: l) : reSubSpaced pat l = l := by
  induction l with
  | nil => rfl
  | cons c rest ih =>
    rw [reSubSpaced_cons pat hp]
    have hm : ¬ pat.isPrefixOf (c :: rest) := by
      intro hm
      exact h (List.IsPrefix.isInfix (List.isPrefixOf_iff_prefix.mp hm))
    rw [if_neg hm]
    have : ¬ pat <:+: rest := fun hi => h (List.infix_cons hi)
    rw [ih this]

theorem reSubSpaced_match_head (pat r : List Char) (hp : pat ≠ []) :
    reSubSpaced pat (pat ++ r) = reSubSpaced pat (dropSpaces r) := by
  cases hpat : pat with
  | nil => exact absurd hpat hp
  | cons c p' =>
    rw [← hpat]
    have hne : pat ++ r = c :: (p' ++ r) := by rw [hpat]; rfl
    rw [hne, reSubSpaced_cons pat hp]
    have hm : pat.isPrefixOf (c :: (p' ++ r)) := by
      rw [← hne]
      exact List.isPrefixOf_iff_prefix.mpr (List.prefix_append pat r)
    rw [if_pos hm, ← hne, List.drop_left]

theorem btp_cons (c : Char) (l : List Char) :
    btp (c :: l) = if c = gbc then btp l + 1 else 0 := by
  simp only [btp, List.takeWhile_cons]
  by_cases h : c = gbc
  · simp [h]
  · simp [h]

theorem fenceChars_ne_nil : fenceChars ≠ [] := by decide

theorem fenceJsonChars_ne_nil : fenceJsonChars ≠ [] := by decide

theorem fenceChars_eq : fenceChars = [gbc, gbc, gbc] := rfl

theorem fence_prefix_iff {l : List Char} : fenceChars <+: l ↔ 3 ≤ btp l := by
  constructor
  · rintro ⟨t, rfl⟩
    simp [fenceChars_eq, btp_cons]
  · intro h3
    have hrep : l.takeWhile (fun c => c = gbc) = List.replicate (btp l) gbc := by
      have hmem : ∀ b ∈ l.takeWhile (fun c => c = gbc), b = gbc := by
        intro b hb
        have := List.mem_takeWhile_imp hb
        exact of_decide_eq_true this
      simpa [btp] using List.eq_replicate_of_mem hmem
    have hsplit : List.replicate (btp l) gbc =
        List.replicate 3 gbc ++ List.replicate (btp l - 3) gbc := by
      rw [← List.replicate_add]
      congr 1
      omega
    have h1 : fenceChars <+: l.takeWhile (fun c => c = gbc) := by
      rw [hrep, hsplit]
      exact ⟨_, rfl⟩
    exact h1.trans (List.takeWhile_prefix _)

theorem fence_sub_invariant : ∀ (n : Nat) (l : List Char), l.length ≤ n →
    ¬ fenceChars <:+: reSubSpaced fenceChars l ∧
    btp (reSubSpaced fenceChars l) ≤ 2 ∧
    btp (reSubSpaced fenceChars l) ≤ btp l := by
  intro n
  induction n with
  | zero =>
    intro l h
    have hl : l = [] := List.eq_nil_of_length_eq_zero (Nat.le_zero.mp h)
    subst hl
    have h0 : reSubSpaced fenceChars [] = [] := rfl
    rw [h0]
    exact ⟨by decide, by simp [btp], Nat.le_refl _⟩
  | succ m ih =>
    intro l hlen
    cases l with
    | nil =>
      have h0 : reSubSpaced fenceChars [] = [] := rfl
      rw [h0]
      exact ⟨by decide, by simp [btp], Nat.le_refl _⟩
    | cons c rest =>
      rw [reSubSpaced_cons _ fenceChars_ne_nil]
      by_cases hm : fenceChars.isPrefixOf (c :: rest)
      · rw [if_pos hm]
        have hdrop : (dropSpaces ((c :: rest).drop fenceChars.length)).length ≤ m := by
          have h1 : (dropSpaces ((c :: rest).drop fenceChars.length)).length
              ≤ ((c :: rest).drop fenceChars.length).length := dropSpaces_length_le _
          have h2 : ((c :: rest).drop fenceChars.length).length
              = rest.length + 1 - fenceChars.length := by simp [List.length_drop]
          have h3 : rest.length ≤ m := by simpa using hlen
          have h4 : 1 ≤ fenceChars.length := List.length_pos.mpr fenceChars_ne_nil
          omega
        obtain ⟨h1, h2, h3⟩ := ih _ hdrop
        refine ⟨h1, h2, ?_⟩
        have hb : 3 ≤ btp (c :: rest) :=
          fence_prefix_iff.mp (List.isPrefixOf_iff_prefix.mp hm)
        omega
      · rw [if_neg hm]
        have hrest : rest.length ≤ m := by simpa using hlen
        obtain ⟨h1, h2, h3⟩ := ih rest hrest
        have hnp : ¬ (3 ≤ btp (c :: rest)) := fun h =>
          hm (List.isPrefixOf_iff_prefix.mpr (fence_prefix_iff.mpr h))
        by_cases hc : c = gbc
        · have hb1 : btp rest ≤ 1 := by
            rw [btp_cons, if_pos hc] at hnp
            omega
          refine ⟨?_, ?_, ?_⟩
          · intro hinf
            rcases List.infix_cons_iff.mp hinf with hpre | htail
            · have := fence_prefix_iff.mp hpre
              rw [btp_cons, if_pos hc] at this
              omega
            · exact h1 htail
          · rw [btp_cons, if_pos hc]
            omega
          · rw [btp_cons, if_pos hc, btp_cons, if_pos hc]
            omega
        · refine ⟨?_, ?_, ?_⟩
          · intro hinf
            rcases List.infix_cons_iff.mp hinf with hpre | htail
            · have := fence_prefix_iff.mp hpre
              rw [btp_cons, if_neg hc] at this
              omega
            · exact h1 htail
          · rw [btp_cons, if_neg hc]
            omega
          · rw [btp_cons, if_neg hc]
            omega

/-- After the second substitution pass no fence marker remains. -/
theorem fence_free_sub3 (l : List Char) :
    ¬ fenceChars <:+: reSubSpaced fenceChars l :=
  (fence_sub_invariant l.length l (Nat.le_refl _)).1

theorem fence_prefix_fenceJson : fenceChars <+: fenceJsonChars := by decide

theorem fenceJson_infix_imp {l : List Char} (h : fenceJsonChars <:+: l) :
    fenceChars <:+: l :=
  (fence_prefix_fenceJson.isInfix).trans h

theorem subJson_eq_self {l : List Char} (h : ¬ fenceChars <:+: l) :
    reSubSpaced fenceJsonChars l = l :=
  reSubSpaced_eq_self fenceJsonChars_ne_nil (fun hi => h (fenceJson_infix_imp hi))

theorem sub3_eq_self {l : List Char} (h : ¬ fenceChars <:+: l) :
    reSubSpaced fenceChars l = l :=
  reSubSpaced_eq_self fenceChars_ne_nil h

theorem pyStrip_reverse_prefix_self (l : List Char) :
    ((l.dropWhile pySpace).reverse.dropWhile pySpace).reverse <+: l.dropWhile pySpace := by
  rw [← List.reverse_suffix]
  simpa using List.dropWhile_suffix (l := (l.dropWhile pySpace).reverse) pySpace

theorem pyStrip_infix_self (l : List Char) : pyStrip l <:+: l :=
  (pyStrip_reverse_prefix_self l).isInfix.trans (List.dropWhile_suffix pySpace).isInfix

theorem dropWhile_dropWhile (p : Char → Bool) (l : List Char) :
    (l.dropWhile p).dropWhile p = l.dropWhile p := by
  cases h : l.dropWhile p with
  | nil => rfl
  | cons c t =>
    have hne : l.dropWhile p ≠ [] := by rw [h]; exact List.cons_ne_nil _ _
    have hc : p c = false := by
      have := List.head_dropWhile_not p l hne
      rwa [show (l.dropWhile p).head hne = c by rw [List.head_eq_iff_head?_eq_some]; rw [h]; rfl]
        at this
    rw [List.dropWhile_cons, hc]
    simp

theorem pyStrip_idem (l : List Char) : pyStrip (pyStrip l) = pyStrip l := by
  have hstrip : pyStrip l = ((l.dropWhile pySpace).reverse.dropWhile pySpace).reverse := rfl
  have step1 : (pyStrip l).dropWhile pySpace = pyStrip l := by
    cases hv : pyStrip l with
    | nil => rfl
    | cons c w =>
      have hpre : pyStrip l <+: l.dropWhile pySpace := pyStrip_reverse_prefix_self l
      rw [hv] at hpre
      obtain ⟨t, ht⟩ := hpre
      have hne : l.dropWhile pySpace ≠ [] := by
        rw [← ht]
        exact List.cons_ne_nil _ _
      have hc : pySpace c = false := by
        have := List.head_dropWhile_not pySpace l hne
        rwa [show (l.dropWhile pySpace).head hne = c by
          rw [List.head_eq_iff_head?_eq_some]; rw [← ht]; rfl] at this
      rw [List.dropWhile_cons, hc]
      simp
  have step2 : (pyStrip l).reverse.dropWhile pySpace = (pyStrip l).reverse := by
    rw [hstrip, List.reverse_reverse]
    exact dropWhile_dropWhile pySpace _
  show (((pyStrip l).dropWhile pySpace).reverse.dropWhile pySpace).reverse = pyStrip l
  rw [step1, step2, List.reverse_reverse]

theorem clean_data (s : String) :
    clean_json_string s =
      String.mk (pyStrip (reSubSpaced fenceChars (reSubSpaced fenceJsonChars s.data))) :=
  rfl

theorem fence_not_infix_concat {u : List Char} (h : ¬ fenceChars <:+: u) :
    ¬ fenceChars <:+: u ++ [ '\n' ] := by
  intro hi
  rcases List.infix_concat_iff.mp hi with hsuf | hinf
  · rcases List.suffix_concat_iff.mp hsuf with hnil | ⟨t, hft, _⟩
    · exact fenceChars_ne_nil hnil
    · have hlast := congrArg List.getLast? hft
      rw [List.getLast?_concat] at hlast
      have h2 : fenceChars.getLast? = some gbc := rfl
      rw [h2] at hlast
      injection hlast with h3
      exact absurd h3 (by decide)
  · exact h hinf

theorem btp_append_cons_eq {c : Char} (hc : ¬ c = gbc) (u v : List Char) :
    btp (u ++ c :: v) = btp u := by
  induction u with
  | nil => simp [btp_cons, hc, btp]
  | cons d u' ih =>
    rw [List.cons_append, btp_cons, btp_cons, ih]

/-- Substituting over `u ++ "\n" ++ "```"` when `u ++ "\n"` is fence-free:
the `` ```json `` pass changes nothing, and the `` ``` `` pass deletes
exactly the terminal marker. -/
theorem sub_wrap_tail (u : List Char) (h : ¬ fenceChars <:+: u ++ [ '\n' ]) :
    reSubSpaced fenceJsonChars (u ++ '\n' :: fenceChars) = u ++ '\n' :: fenceChars ∧
    reSubSpaced fenceChars (u ++ '\n' :: fenceChars) = u ++ [ '\n' ] := by
  induction u with
  | nil =>
    constructor
    · decide
    · decide
  | cons c u' ih =>
    have h' : ¬ fenceChars <:+: u' ++ [ '\n' ] := fun hi => h (List.infix_cons hi)
    obtain ⟨ih1, ih2⟩ := ih h'
    have hbtp : ¬ (3 ≤ btp ((c :: u') ++ '\n' :: fenceChars)) := by
      intro h3
      rw [btp_append_cons_eq (by decide)] at h3
      have hpre : fenceChars <+: c :: u' := fence_prefix_iff.mpr h3
      have : fenceChars <:+: (c :: u') ++ [ '\n' ] := by
        have := List.infix_concat (a := '\n') hpre.isInfix
        rwa [List.concat_eq_append] at this
      exact h this
    constructor
    · rw [show (c :: u') ++ '\n' :: fenceChars = c :: (u' ++ '\n' :: fenceChars) from rfl]
      rw [reSubSpaced_cons _ fenceJsonChars_ne_nil]
      rw [if_neg ?hmj, ih1]
      case hmj =>
        intro hm
        have hp := List.isPrefixOf_iff_prefix.mp hm
        have hfp : fenceChars <+: c :: (u' ++ '\n' :: fenceChars) :=
          fence_prefix_fenceJson.trans hp
        exact hbtp (fence_prefix_iff.mp hfp)
    · rw [show (c :: u') ++ '\n' :: fenceChars = c :: (u' ++ '\n' :: fenceChars) from rfl]
      rw [reSubSpaced_cons _ fenceChars_ne_nil]
      rw [if_neg ?hm3, ih2]
      case right => rfl
      case hm3 =>
        intro hm
        have hp := List.isPrefixOf_iff_prefix.mp hm
        exact hbtp (fence_prefix_iff.mp hp)

/-! ## Claim theorems -/

/-- C9: `clean_json_string` is idempotent.  It removes every occurrence of
the markers `` ```json `` and `` ``` `` anywhere in the string (not only a
leading/trailing wrapper) and finally strips surrounding whitespace, so a
second application finds no fence marker and nothing left to strip. -/
theorem C9_clean_json_string_idempotent (s : String) :
    clean_json_string (clean_json_string s) = clean_json_string s := by
  have hfree : ¬ fenceChars <:+:
      pyStrip (reSubSpaced fenceChars (reSubSpaced fenceJsonChars s.data)) := by
    intro hi
    exact fence_free_sub3 (reSubSpaced fenceJsonChars s.data)
      (hi.trans (pyStrip_infix_self _))
  calc clean_json_string (clean_json_string s)
      = String.mk (pyStrip (reSubSpaced fenceChars (reSubSpaced fenceJsonChars
          (pyStrip (reSubSpaced fenceChars (reSubSpaced fenceJsonChars s.data)))))) := by
        rw [clean_data s, clean_data]
    _ = String.mk (pyStrip (pyStrip (reSubSpaced fenceChars
          (reSubSpaced fenceJsonChars s.data)))) := by
        rw [subJson_eq_self hfree, sub3_eq_self hfree]
    _ = String.mk (pyStrip (reSubSpaced fenceChars (reSubSpaced fenceJsonChars s.data))) := by
        rw [pyStrip_idem]
    _ = clean_json_string s := (clean_data s).symm

/-- C4 (amended): for every payload that itself contains no occurrence of
the fence marker `` ``` ``, the model response obtained by wrapping it in a
markdown code fence (`` ```json `` ... `` ``` ``) sanitizes to exactly the
same string as the unwrapped payload, and hence decodes identically in the
pipeline (which always decodes `clean_json_string` of the response).  The
restriction is forced: `clean_json_string` removes fence markers
*everywhere*, not only as a leading/trailing wrapper, so a payload
containing `` ``` `` (e.g. inside a JSON string literal) is mangled — see
the counterexample. -/
theorem C4_fence_wrapped_payload_cleans_identically (p : String)
    (hp : ¬ fenceChars <:+: p.data) :
    clean_json_string ( "```json\n" ++ p ++ "\n```") = clean_json_string p := by
  have hnl : pySpace '\n' = true := by decide
  have hdata : ( "```json\n" ++ p ++ "\n```").data
      = fenceJsonChars ++ ('\n' :: (p.data ++ '\n' :: fenceChars)) := by
    simp [fenceJsonChars, fenceChars]
  rw [clean_data, clean_data, hdata]
  rw [reSubSpaced_match_head _ _ fenceJsonChars_ne_nil]
  have hds : dropSpaces ('\n' :: (p.data ++ '\n' :: fenceChars))
      = dropSpaces (p.data ++ '\n' :: fenceChars) := by
    simp only [dropSpaces]
    rw [List.dropWhile_cons, if_pos hnl]
  rw [hds]
  simp only [dropSpaces]
  rw [List.dropWhile_append]
  by_cases hq : (p.data.dropWhile pySpace).isEmpty
  · rw [if_pos hq]
    have hq' : p.data.dropWhile pySpace = [] := by simpa [List.isEmpty_iff] using hq
    have hcut : ('\n' :: fenceChars).dropWhile pySpace = fenceChars := by decide
    have e1 : reSubSpaced fenceJsonChars fenceChars = fenceChars := by decide
    have e2 : reSubSpaced fenceChars fenceChars = [] := by decide
    rw [hcut, e1, e2, subJson_eq_self hp, sub3_eq_self hp]
    congr 1
    simp only [pyStrip]
    rw [hq']
    rfl
  · rw [if_neg hq]
    have hqne : p.data.dropWhile pySpace ≠ [] := by simpa [List.isEmpty_iff] using hq
    have hqfree : ¬ fenceChars <:+: p.data.dropWhile pySpace :=
      fun hi => hp (hi.trans (List.dropWhile_suffix pySpace).isInfix)
    obtain ⟨w1, w2⟩ := sub_wrap_tail (p.data.dropWhile pySpace)
      (fence_not_infix_concat hqfree)
    rw [w1, w2, subJson_eq_self hp, sub3_eq_self hp]
    congr 1
    obtain ⟨c, q', hcq⟩ := List.exists_cons_of_ne_nil hqne
    have hcns : pySpace c = false := by
      have := List.head_dropWhile_not pySpace p.data hqne
      rwa [show (p.data.dropWhile pySpace).head hqne = c by
        rw [List.head_eq_iff_head?_eq_some]; rw [hcq]; rfl] at this
    simp only [pyStrip]
    have hl : (p.data.dropWhile pySpace ++ [ '\n' ]).dropWhile pySpace
        = p.data.dropWhile pySpace ++ [ '\n' ] := by
      rw [hcq, List.cons_append, List.dropWhile_cons, hcns]
      simp
    rw [hl]
    congr 1
    rw [List.reverse_append]
    show ( '\n' :: (p.data.dropWhile pySpace).reverse).dropWhile pySpace = _
    rw [List.dropWhile_cons, if_pos hnl]

/-- Witness for C4 (amended) at the fence-free payload `[1, 2]`. -/
theorem C4_fence_wrapped_payload_cleans_identically_witness :
    clean_json_string ( "```json\n" ++ "[1, 2]" ++ "\n```") = clean_json_string "[1, 2]" :=
  C4_fence_wrapped_payload_cleans_identically "[1, 2]" (by decide)

/-- C4 counterexample: the JSON payload `"```"` (a string literal whose
value is the three-character fence marker) is valid JSON decoding to the
string `` ``` ``, but wrapping it in the code fence and sanitizing decodes
to the empty string: `clean_json_string` removed the occurrence *inside*
the payload as well, so the wrapped response does not decode to the same
value as the unwrapped payload, and sanitization does not strip only the
leading/trailing wrapper. -/
theorem C4_counterexample :
    json_loads "\"```\"" = some (.pystr "```") ∧
    json_loads (clean_json_string ( "```json\n" ++ "\"```\"" ++ "\n```")) =
      some (.pystr "") ∧
    PyObj.pystr "```" ≠ PyObj.pystr "" :=
  ⟨rfl, rfl, fun h => by injection h with h'; exact absurd h' (by decide)⟩

/-- C1: for any image whose stage-1 model call raises or whose stage-1
response fails to decode after sanitization, `analyze_single_image` returns
a typed failure — data `None`, an error message present — and the stage-3
extraction call is never issued; moreover (in every case, with or without a
status container) the returned pair is never a mixture: whenever an error
is present the data slot is `None`. -/
theorem C1_stage1_failure_short_circuits (hs : Bool) (env : ModelEnv) :
    (stage1_failed env →
      ∃ m, analyze_single_image hs env = .ret .pynone (some m) false) ∧
    (∀ d e b, analyze_single_image hs env = .ret d e b → e.isSome → d = .pynone) := by
  constructor
  · intro hfail
    cases henv : env.stage1 with
    | error er =>
      exact ⟨ "Structure Analysis Failed: " ++ er, by simp [analyze_single_image, henv]⟩
    | ok t =>
      have hdec : json_loads (clean_json_string t) = none := by
        have := hfail
        unfold stage1_failed at this
        rw [henv] at this
        exact this
      exact ⟨ "Structure Analysis Failed: " ++ json_decode_error_text,
        by simp [analyze_single_image, henv, hdec]⟩
  · intro d e b hret hes
    unfold analyze_single_image at hret
    cases henv : env.stage1 with
    | error er =>
      rw [henv] at hret
      obtain ⟨hd, he, hb⟩ := PipeOutcome.ret.inj hret
      exact hd.symm
    | ok t =>
      rw [henv] at hret
      dsimp only at hret
      cases hdec : json_loads (clean_json_string t) with
      | none =>
        rw [hdec] at hret
        dsimp only at hret
        obtain ⟨hd, he, hb⟩ := PipeOutcome.ret.inj hret
        exact hd.symm
      | some sj =>
        rw [hdec] at hret
        dsimp only at hret
        by_cases hds : (hs && !(isDict sj)) = true
        · rw [if_pos hds] at hret
          obtain ⟨hd, he, hb⟩ := PipeOutcome.ret.inj hret
          exact hd.symm
        · rw [if_neg hds] at hret
          cases sj with
          | pydict kvs =>
            dsimp only at hret
            cases h3 : env.stage3 with
            | error e3 =>
              rw [h3] at hret
              dsimp only at hret
              obtain ⟨hd, he, hb⟩ := PipeOutcome.ret.inj hret
              exact hd.symm
            | ok t3 =>
              rw [h3] at hret
              dsimp only at hret
              cases hd3 : json_loads (clean_json_string t3) with
              | none =>
                rw [hd3] at hret
                dsimp only at hret
                obtain ⟨hd, he, hb⟩ := PipeOutcome.ret.inj hret
                exact hd.symm
              | some v =>
                rw [hd3] at hret
                dsimp only at hret
                obtain ⟨hd, he, hb⟩ := PipeOutcome.ret.inj hret
                rw [← he] at hes
                simp at hes
          | pynone => exact absurd hret (by simp)
          | pybool bb => exact absurd hret (by simp)
          | pyint n => exact absurd hret (by simp)
          | pyfloat lx => exact absurd hret (by simp)
          | pystr ss => exact absurd hret (by simp)
          | pylist xs => exact absurd hret (by simp)

/-- Witness for C1 at a stage-1 call failure. -/
theorem C1_stage1_failure_short_circuits_witness :
    ∃ m, analyze_single_image true ⟨.error "boom", .ok "[]"⟩ =
      .ret .pynone (some m) false :=
  (C1_stage1_failure_short_circuits true ⟨.error "boom", .ok "[]"⟩).1 trivial

/-- C10: the stage-3 response `null` is well-formed JSON decoding to Python
`None`, so `analyze_single_image` returns the pair `(None, None)` — no data
and no error.  In the batch loop such an image takes neither the failure
branch (`if error:`) nor the success branch (`elif data:`): on a one-image
batch the aggregate stays empty and no error is reported. -/
theorem C10_null_response_yields_silent_skip :
    analyze_single_image true ⟨.ok sampleStructText, .ok "null"⟩ =
      .ret .pynone none true ∧
    runBatch [⟨ "img.jpg", ⟨.ok sampleStructText, .ok "null"⟩⟩] =
      .ok ⟨[], [], 0, 0, []⟩ :=
  ⟨rfl, rfl⟩

theorem pyIn_mid (a n b : String) : pyIn n (a ++ n ++ b) = true :=
  pyIn_iff.mpr ⟨a.data, b.data, by simp⟩

/-- C6: the stage-2 prompt construction branches exactly on whether both
`row_headers` and `column_headers` of the decoded `BoardStructure` are
non-empty lists (an absent key defaults to `[]`).  When both are non-empty
the context is the matrix instruction, and the final extraction prompt
embeds the literal `str(rows)` / `str(cols)` lists and the
count-every-intersection command; when either is empty the context is the
pure transcription/categorization instruction. -/
theorem C6_extraction_prompt_branches (kvs : List (String × PyObj))
    (rs cs : List PyObj)
    (hr : pyDictGet kvs "row_headers" (.pylist []) = .pylist rs)
    (hc : pyDictGet kvs "column_headers" (.pylist []) = .pylist cs) :
    (rs ≠ [] → cs ≠ [] →
      stage2_context kvs = matrix_context (.pylist rs) (.pylist cs) ∧
      pyIn (pyStr (.pylist rs)) (final_prompt (stage2_context kvs)) = true ∧
      pyIn (pyStr (.pylist cs)) (final_prompt (stage2_context kvs)) = true ∧
      pyIn "TASK: Count dots/pins at every intersection."
        (final_prompt (stage2_context kvs)) = true) ∧
    ((rs = [] ∨ cs = []) → stage2_context kvs = text_context) := by
  constructor
  · intro hrs hcs
    have hctx : stage2_context kvs = matrix_context (.pylist rs) (.pylist cs) := by
      unfold stage2_context
      rw [hr, hc]
      simp [truthy, hrs, hcs]
    refine ⟨hctx, ?_, ?_, ?_⟩
    · rw [hctx]
      have hshape : final_prompt (matrix_context (.pylist rs) (.pylist cs)) =
          ( "\n    " ++ "\n        MATRIX DETECTED.\n        ROWS: ") ++
            pyStr (.pylist rs) ++
            ( "\n        COLUMNS: " ++ pyStr (.pylist cs) ++
              "\n        TASK: Count dots/pins at every intersection.\n        " ++
              "\n    REQUIREMENTS:\n    1. voting_data: One entry per matrix cell. If empty, count=0.\n    2. sticky_notes: Complete transcription of all legible text.\n    ") := by
        simp [final_prompt, matrix_context, String.append_assoc]
        rfl
      rw [hshape]
      exact pyIn_mid _ _ _
    · rw [hctx]
      have hshape : final_prompt (matrix_context (.pylist rs) (.pylist cs)) =
          ( "\n    " ++ "\n        MATRIX DETECTED.\n        ROWS: " ++
              pyStr (.pylist rs) ++ "\n        COLUMNS: ") ++
            pyStr (.pylist cs) ++
            ( "\n        TASK: Count dots/pins at every intersection.\n        " ++
              "\n    REQUIREMENTS:\n    1. voting_data: One entry per matrix cell. If empty, count=0.\n    2. sticky_notes: Complete transcription of all legible text.\n    ") := by
        simp [final_prompt, matrix_context, String.append_assoc]
        rfl
      rw [hshape]
      exact pyIn_mid _ _ _
    · rw [hctx]
      have hshape : final_prompt (matrix_context (.pylist rs) (.pylist cs)) =
          ( "\n    " ++ "\n        MATRIX DETECTED.\n        ROWS: " ++
              pyStr (.pylist rs) ++ "\n        COLUMNS: " ++ pyStr (.pylist cs) ++
              "\n        ") ++
            "TASK: Count dots/pins at every intersection." ++
            ( "\n        " ++
              "\n    REQUIREMENTS:\n    1. voting_data: One entry per matrix cell. If empty, count=0.\n    2. sticky_notes: Complete transcription of all legible text.\n    ") := by
        simp [final_prompt, matrix_context, String.append_assoc]
        rfl
      rw [hshape]
      exact pyIn_mid _ _ _
  · rintro (h | h) <;>
      (unfold stage2_context; rw [hr, hc]; subst h; simp [truthy])

/-- Witness for C6 at a concrete one-by-one matrix structure. -/
theorem C6_extraction_prompt_branches_witness :
    stage2_context [( "row_headers", .pylist [.pystr "A"]),
                    ( "column_headers", .pylist [.pystr "X"])] =
      matrix_context (.pylist [.pystr "A"]) (.pylist [.pystr "X"]) ∧
    pyIn (pyStr (.pylist [.pystr "A"]))
      (final_prompt (stage2_context [( "row_headers", .pylist [.pystr "A"]),
                                     ( "column_headers", .pylist [.pystr "X"])])) = true :=
  have h := (C6_extraction_prompt_branches
    [( "row_headers", .pylist [.pystr "A"]), ( "column_headers", .pylist [.pystr "X"])]
    [.pystr "A"] [.pystr "X"] rfl rfl).1
    (List.cons_ne_nil _ _) (List.cons_ne_nil _ _)
  ⟨h.1, h.2.1⟩

theorem processFile_eq_classify (st : BatchState) (f : FileJob) :
    processFile st f =
      match classifyFile f with
      | .success tv tn => .ok { st with all_votes := st.all_votes ++ tv,
                                        all_notes := st.all_notes ++ tn }
      | .rateLimited _ => .ok { st with cooldowns := st.cooldowns + 1,
                                        sleep_seconds := st.sleep_seconds + 60 }
      | .failedOther e => .ok { st with reported := st.reported ++ [(f.name, e)] }
      | .silent => .ok st
      | .crashed m => .error m := by
  unfold processFile classifyFile
  cases analyze_single_image true f.env with
  | crash m => rfl
  | ret data error s3 =>
    by_cases he : errTruthy error
    · by_cases h4 : pyIn "429" (error.getD "")
      · simp [he, h4]
      · simp [he, h4]
    · by_cases ht : truthy data
      · cases data with
        | pydict kvs =>
          cases h1 : collectRecords f.name (pyDictGet kvs "voting_data" .pynone) with
          | error m => simp [he, ht, h1]
          | ok tv =>
            cases h2 : collectRecords f.name (pyDictGet kvs "sticky_notes" .pynone) with
            | error m => simp [he, ht, h1, h2]
            | ok tn => simp [he, ht, h1, h2]
        | pynone => simp [he, ht]
        | pybool bb => simp [he, ht]
        | pyint n => simp [he, ht]
        | pyfloat lx => simp [he, ht]
        | pystr ss => simp [he, ht]
        | pylist xs => simp [he, ht]
      · simp [he, ht]

theorem runBatchFrom_no_crash (fs : List FileJob) :
    ∀ st : BatchState, (∀ f ∈ fs, ∀ m, classifyFile f ≠ .crashed m) →
      runBatchFrom st fs = .ok
        { all_votes := st.all_votes ++ fs.flatMap deltaVotes
          all_notes := st.all_notes ++ fs.flatMap deltaNotes
          cooldowns := st.cooldowns + rlCount fs
          sleep_seconds := st.sleep_seconds + 60 * rlCount fs
          reported := st.reported ++ fs.flatMap deltaReports } := by
  induction fs with
  | nil =>
    intro st _
    simp [runBatchFrom, rlCount]
  | cons f fs ih =>
    intro st h
    have hf := h f (List.mem_cons_self _ _)
    have hfs : ∀ g ∈ fs, ∀ m, classifyFile g ≠ .crashed m :=
      fun g hg => h g (List.mem_cons_of_mem _ hg)
    show runBatchFrom st (f :: fs) = _
    simp only [runBatchFrom]
    rw [processFile_eq_classify]
    cases hc : classifyFile f with
    | crashed m => exact absurd hc (hf m)
    | success tv tn =>
      dsimp only
      rw [ih _ hfs]
      simp only [deltaVotes, deltaNotes, deltaReports, rlCount, isRateLimitedB, hc,
        List.flatMap_cons, List.filter_cons, List.append_assoc]
      simp
    | rateLimited e =>
      dsimp only
      rw [ih _ hfs]
      simp only [deltaVotes, deltaNotes, deltaReports, rlCount, isRateLimitedB, hc,
        List.flatMap_cons, List.filter_cons, List.append_assoc]
      simp
      omega
    | failedOther e =>
      dsimp only
      rw [ih _ hfs]
      simp only [deltaVotes, deltaNotes, deltaReports, rlCount, isRateLimitedB, hc,
        List.flatMap_cons, List.filter_cons, List.append_assoc]
      simp
    | silent =>
      dsimp only
      rw [ih _ hfs]
      simp only [deltaVotes, deltaNotes, deltaReports, rlCount, isRateLimitedB, hc,
        List.flatMap_cons, List.filter_cons, List.append_assoc]
      simp

theorem success_not_crashed {f : FileJob} (h : isSuccess f) :
    ∀ m, classifyFile f ≠ .crashed m := by
  obtain ⟨tv, tn, hs⟩ := h
  intro m
  rw [hs]
  simp

theorem success_not_rl {f : FileJob} (h : isSuccess f) : isRateLimitedB f = false := by
  obtain ⟨tv, tn, hs⟩ := h
  simp [isRateLimitedB, hs]

theorem success_no_report {f : FileJob} (h : isSuccess f) : deltaReports f = [] := by
  obtain ⟨tv, tn, hs⟩ := h
  simp [deltaReports, hs]

theorem failedOther_not_crashed {f : FileJob} (h : isFailedOther f) :
    ∀ m, classifyFile f ≠ .crashed m := by
  obtain ⟨e, hs⟩ := h
  intro m
  rw [hs]
  simp

theorem failedOther_not_rl {f : FileJob} (h : isFailedOther f) :
    isRateLimitedB f = false := by
  obtain ⟨e, hs⟩ := h
  simp [isRateLimitedB, hs]

theorem flatMap_nil_of_forall {α β : Type} (g : α → List β) :
    ∀ L : List α, (∀ f ∈ L, g f = []) → L.flatMap g = [] := by
  intro L
  induction L with
  | nil => intro _; rfl
  | cons x xs ih =>
    intro h
    rw [List.flatMap_cons, h x (List.mem_cons_self _ _), ih (fun y hy => h y (List.mem_cons_of_mem _ hy))]
    rfl

theorem rlCount_zero {L : List FileJob} (h : ∀ f ∈ L, isRateLimitedB f = false) :
    rlCount L = 0 := by
  rw [rlCount, List.filter_eq_nil_iff.mpr (fun f hf => by rw [h f hf]; simp)]
  rfl

/-- C2: in a batch `A ++ [k] ++ B` where every image in `A` and `B` is
processed successfully and image `k` fails with a truthy error containing
the rate-limit signal `429`, the run completes, triggers exactly one
60-second cooldown, retries nothing (image `k` contributes no records), and
the final aggregate is exactly the tagged records of `A` then `B`, in
upload order, with no error report. -/
theorem C2_single_rate_limited_image (A B : List FileJob) (k : FileJob)
    (hA : ∀ f ∈ A, isSuccess f) (hB : ∀ f ∈ B, isSuccess f)
    (hk : isRateLimited k) :
    runBatch (A ++ k :: B) = .ok
      { all_votes := A.flatMap deltaVotes ++ B.flatMap deltaVotes
        all_notes := A.flatMap deltaNotes ++ B.flatMap deltaNotes
        cooldowns := 1
        sleep_seconds := 60
        reported := [] } := by
  obtain ⟨ek, hek⟩ := hk
  have hnc : ∀ f ∈ A ++ k :: B, ∀ m, classifyFile f ≠ .crashed m := by
    intro f hf
    rcases List.mem_append.mp hf with hfa | hfkb
    · exact success_not_crashed (hA f hfa)
    · rcases List.mem_cons.mp hfkb with rfl | hfb
      · intro m
        rw [hek]
        simp
      · exact success_not_crashed (hB f hfb)
  rw [runBatch, runBatchFrom_no_crash _ _ hnc]
  have hkv : deltaVotes k = [] := by simp [deltaVotes, hek]
  have hkn : deltaNotes k = [] := by simp [deltaNotes, hek]
  have hkr : deltaReports k = [] := by simp [deltaReports, hek]
  have hrc : rlCount (A ++ k :: B) = 1 := by
    rw [rlCount, List.filter_append, List.filter_cons]
    have hkb : isRateLimitedB k = true := by simp [isRateLimitedB, hek]
    rw [List.filter_eq_nil_iff.mpr (fun f hf => by rw [success_not_rl (hA f hf)]; simp),
      List.filter_eq_nil_iff.mpr (fun f hf => by rw [success_not_rl (hB f hf)]; simp)]
    simp [hkb]
  have hrep : (A ++ k :: B).flatMap deltaReports = [] := by
    apply flatMap_nil_of_forall
    intro f hf
    rcases List.mem_append.mp hf with hfa | hfkb
    · exact success_no_report (hA f hfa)
    · rcases List.mem_cons.mp hfkb with rfl | hfb
      · exact hkr
      · exact success_no_report (hB f hfb)
  simp [initialBatchState, hrc, hrep, hkv, hkn, List.flatMap_append, List.flatMap_cons]

/-- Witness for C2: a two-image batch — one good image, then one image
whose stage-3 call fails with a `429` error. -/
theorem C2_single_rate_limited_image_witness :
    runBatch [sampleGoodJob, sampleRateLimitedJob] = .ok
      { all_votes := [PyObj.pydict
          [( "row_label", .pystr "A"), ( "column_label", .pystr "X"),
           ( "dot_count", .pyint 2), ( "source_file", .pystr "good.jpg")]]
        all_notes := []
        cooldowns := 1
        sleep_seconds := 60
        reported := [] } := by
  have h := C2_single_rate_limited_image [sampleGoodJob] [] sampleRateLimitedJob
    (by
      intro f hf
      rw [List.mem_singleton.mp hf]
      exact ⟨[PyObj.pydict
        [( "row_label", .pystr "A"), ( "column_label", .pystr "X"),
         ( "dot_count", .pyint 2), ( "source_file", .pystr "good.jpg")]], [], rfl⟩)
    (by intro f hf; simp at hf)
    ⟨ "Extraction Failed: 429 Resource has been exhausted", rfl⟩
  simpa using h

/-- C7: a batch in which every image either succeeds or fails with a
non-rate-limit error always completes (no failing image aborts it), every
failing image's error is reported against its file name, no cooldown is
triggered, and the aggregate receives exactly the records of the
successfully processed images, in upload order. -/
theorem C7_non429_failures_are_isolated (files : List FileJob)
    (h : ∀ f ∈ files, isSuccess f ∨ isFailedOther f) :
    runBatch files = .ok
      { all_votes := files.flatMap deltaVotes
        all_notes := files.flatMap deltaNotes
        cooldowns := 0
        sleep_seconds := 0
        reported := files.flatMap deltaReports } := by
  have hnc : ∀ f ∈ files, ∀ m, classifyFile f ≠ .crashed m := by
    intro f hf
    rcases h f hf with hs | ho
    · exact success_not_crashed hs
    · exact failedOther_not_crashed ho
  rw [runBatch, runBatchFrom_no_crash _ _ hnc]
  have h0 : rlCount files = 0 := by
    apply rlCount_zero
    intro f hf
    rcases h f hf with hs | ho
    · exact success_not_rl hs
    · exact failedOther_not_rl ho
  simp [initialBatchState, h0]

/-- Witness for C7: a good image followed by an image whose stage-1 call
fails with a non-429 error; the batch completes with the error reported. -/
theorem C7_non429_failures_are_isolated_witness :
    runBatch [sampleGoodJob, sampleFailedJob] = .ok
      { all_votes := [PyObj.pydict
          [( "row_label", .pystr "A"), ( "column_label", .pystr "X"),
           ( "dot_count", .pyint 2), ( "source_file", .pystr "good.jpg")]]
        all_notes := []
        cooldowns := 0
        sleep_seconds := 0
        reported := [( "broken.jpg", "Structure Analysis Failed: DeadlineExceeded")] } := by
  have h := C7_non429_failures_are_isolated [sampleGoodJob, sampleFailedJob]
    (by
      intro f hf
      rcases List.mem_cons.mp hf with rfl | hf2
      · exact Or.inl ⟨[PyObj.pydict
          [( "row_label", .pystr "A"), ( "column_label", .pystr "X"),
           ( "dot_count", .pyint 2), ( "source_file", .pystr "good.jpg")]], [], rfl⟩
      · rw [List.mem_singleton.mp hf2]
        exact Or.inr ⟨ "Structure Analysis Failed: DeadlineExceeded", rfl⟩)
  simpa using h

/-- C3: `get_valid_models` keeps exactly the models whose advertised
capabilities include `generateContent`, and orders them stably by the fixed
rank (`gemini-3` family 0, `gemini-1.5-pro` 1, `gemini-2.0` 2, contains
`flash` 3, else 4): the result is a permutation of the filtered names,
sorted by rank, and any two filtered names of equal rank keep their
provider order; on the identifiers `["flash-x", "gemini-1.5-pro-x",
"gemini-3-preview", "other"]` it returns `["gemini-3-preview",
"gemini-1.5-pro-x", "flash-x", "other"]`. -/
theorem C3_model_ranking :
    (get_valid_models (.ok demoModels)).2 =
      [ "gemini-3-preview", "gemini-1.5-pro-x", "flash-x", "other"] ∧
    ∀ ms : List ProviderModel,
      ((get_valid_models (.ok ms)).2.Perm (validNames ms) ∧
       (get_valid_models (.ok ms)).2.Sorted modelLe ∧
       (∀ a b : String, List.Sublist [a, b] (validNames ms) →
         model_sort_key a = model_sort_key b →
         List.Sublist [a, b] ((get_valid_models (.ok ms)).2))) := by
  constructor
  · rfl
  · intro ms
    have hdef : (get_valid_models (.ok ms)).2 = (validNames ms).insertionSort modelLe := rfl
    refine ⟨?_, ?_, ?_⟩
    · rw [hdef]
      exact List.perm_insertionSort modelLe _
    · rw [hdef]
      exact List.sorted_insertionSort modelLe _
    · intro a b hsub hkey
      rw [hdef]
      exact List.pair_sublist_insertionSort (Nat.le_of_eq hkey) hsub

/-- Witness for C3's stability clause: two distinct `flash` models of equal
rank keep their provider order in the sorted output. -/
theorem C3_model_ranking_witness :
    List.Sublist [ "flash-a", "flash-b"]
      (get_valid_models (.ok
        [⟨ "flash-a", [ "generateContent"]⟩,
         ⟨ "flash-b", [ "generateContent"]⟩])).2 :=
  (C3_model_ranking.2 _).2.2 "flash-a" "flash-b" (List.Sublist.refl _) rfl

/-- C5 (amended): `get_valid_models` never fails: when the credential is
rejected or the listing call raises, it catches the exception, displays an
`Authentication Error` message and returns the empty list; a valid
credential granting no usable models returns the empty list with no error
displayed.  The two outcomes are distinguished only by the displayed error
message, not by the returned sequence. -/
theorem C5_auth_failure_reported_not_raised (e : String) (ms : List ProviderModel) :
    get_valid_models (.error e) = (some ( "Authentication Error: " ++ e), []) ∧
    (get_valid_models (.ok ms)).1 = none :=
  ⟨rfl, rfl⟩

/-- C5 counterexample: the claim says the function *fails* with `AuthError`
on a rejected credential, distinguishably from the empty sequence returned
for a valid credential with no usable models.  In the code both outcomes
return the very same value — the empty list — because the exception handler
swallows the failure (`except ... return []`); the caller cannot tell them
apart by the returned sequence. -/
theorem C5_counterexample :
    (get_valid_models (.error "invalid credential")).2 = [] ∧
    (get_valid_models (.ok [])).2 = [] ∧
    (get_valid_models (.error "invalid credential")).2 = (get_valid_models (.ok [])).2 :=
  ⟨rfl, rfl, rfl⟩

/-- C8: the export section is total — it never raises — and omits exactly
the empty collections: for every combination of empty/non-empty vote and
note collections the workbook consists of the `Dot Voting Data` sheet (iff
there are votes) followed by the `Sticky Notes Text` sheet (iff there are
notes), the master CSV is offered iff there are notes, the both-empty
combination yields an empty workbook and no CSV, and `to_csv` on an empty
collection yields a compliant-but-empty artifact (a lone empty header
line) rather than an error. -/
theorem C8_export_empty_collections_safe (votes notes : List PyObj) :
    (export_section votes notes).workbook_sheets =
      (if votes.isEmpty then [] else [( "Dot Voting Data", (⟨votes⟩ : DataFrame))]) ++
      (if notes.isEmpty then [] else [( "Sticky Notes Text", (⟨notes⟩ : DataFrame))]) ∧
    (export_section votes notes).master_csv =
      (if notes.isEmpty then none else some (to_csv ⟨notes⟩)) ∧
    (export_section [] []).workbook_sheets = [] ∧
    (export_section [] []).master_csv = none ∧
    to_csv ⟨([] : List PyObj)⟩ = [ ""] := by
  refine ⟨?_, ?_, rfl, rfl, rfl⟩
  · unfold export_section excel_sheets DataFrame.empty
    cases votes <;> cases notes <;> simp
  · unfold export_section DataFrame.empty
    cases notes <;> simp

end VBS
